import Mathlib

set_option linter.unusedVariables false

/-!
Verification development for the mobile fitness app repository.

This file gives a shallow embedding, in Lean 4, of the authentication logic
of the repository (claim parsing, token storage, the auth service wrappers,
the provider state machine of `AuthContext.tsx`) and of the walkthrough
screen, and proves the stated properties about those embeddings.

Conventions of the embedding:
  - JavaScript strings are modelled as `String` / `List Char`; `atob` works
    on code points below 256 (one byte per char), matching the latin-1
    semantics of the host `atob`.
  - Functions of the host environment (`atob`, `JSON.parse`, `parseInt`,
    `Number.toString`) are implemented in Lean following their standard
    semantics, so the embedding stays executable.
  - Asynchronous effectful code is modelled by explicit state passing:
    `expo-secure-store` becomes an association list, `Date.now()` a `Nat`
    parameter, and each fallible SDK call an `Except` value supplied by the
    environment.
  - A JavaScript function that may throw is modelled with `Option`/`Except`;
    a `try`/`catch` that swallows the exception becomes a `match` returning
    the fallback value.
-/

namespace FitApp

/-- JSON values as produced by `JSON.parse`. Numbers keep their source
lexeme: no claim compares numeric magnitudes, and the lexeme determines
truthiness, which is all the code under verification uses. -/
inductive Json where
  | null : Json
  | bool (b : Bool) : Json
  | num (lexeme : String) : Json
  | str (s : String) : Json
  | arr (elems : List Json) : Json
  | obj (members : List (String × Json)) : Json

/-- Whitespace accepted by `JSON.parse` between tokens. -/
def jsonWs (c : Char) : Bool :=
  c = ' ' || c = '\t' || c = '\n' || c = '\r'

/-- Drop leading JSON whitespace. -/
def skipWs (cs : List Char) : List Char :=
  cs.dropWhile jsonWs

/-- Numeric value of a hexadecimal digit, if the char is one. -/
def hexVal (c : Char) : Option Nat :=
  if '0' ≤ c ∧ c ≤ '9' then some (c.toNat - 48)
  else if 'a' ≤ c ∧ c ≤ 'f' then some (c.toNat - 97 + 10)
  else if 'A' ≤ c ∧ c ≤ 'F' then some (c.toNat - 65 + 10)
  else none

/-- Combine four hex digits into a 16-bit value. -/
def hex4 (a b c d : Char) : Option Nat := do
  let va ← hexVal a
  let vb ← hexVal b
  let vc ← hexVal c
  let vd ← hexVal d
  pure (va * 4096 + vb * 256 + vc * 16 + vd)

/-- Turn a code unit from a `\u` escape into a `Char`. A lone surrogate,
which JavaScript strings may contain but Lean `Char` cannot, is mapped to
U+FFFD; no property proved here inspects such a string. -/
def codeUnitChar (n : Nat) : Char :=
  if h : n.isValidChar then Char.ofNatAux n h else Char.ofNat 0xFFFD

/-- Body of a JSON string literal, after the opening quote.
Returns the decoded chars and the rest of the input, or `none` when
`JSON.parse` would throw. `fuel` bounds recursion; each step consumes at
least one char, so `cs.length + 1` fuel is always enough. -/
def pStringAux : Nat → List Char → Option (List Char × List Char)
  | 0, _ => none
  | _ + 1, [] => none
  | f + 1, c :: rest =>
    if c = '"' then some ([], rest)
    else if c = '\\' then
      match rest with
      | [] => none
      | e :: rest2 =>
        let simple : Option Char :=
          if e = '"' then some '"'
          else if e = '\\' then some '\\'
          else if e = '/' then some '/'
          else if e = 'b' then some '\x08'
          else if e = 'f' then some '\x0c'
          else if e = 'n' then some '\n'
          else if e = 'r' then some '\r'
          else if e = 't' then some '\t'
          else none
        match simple with
        | some d =>
          match pStringAux f rest2 with
          | some (tail, rem) => some (d :: tail, rem)
          | none => none
        | none =>
          if e = 'u' then
            match rest2 with
            | h1 :: h2 :: h3 :: h4 :: rest3 =>
              match hex4 h1 h2 h3 h4 with
              | some n =>
                match pStringAux f rest3 with
                | some (tail, rem) => some (codeUnitChar n :: tail, rem)
                | none => none
              | none => none
            | _ => none
          else none
    else if c.toNat < 0x20 then none
    else
      match pStringAux f rest with
      | some (tail, rem) => some (c :: tail, rem)
      | none => none

/-- Parse a JSON string literal body (after the opening quote). -/
def pString (cs : List Char) : Option (String × List Char) :=
  match pStringAux (cs.length + 1) cs with
  | some (chars, rest) => some (String.mk chars, rest)
  | none => none

/-- Digits, as used by the JSON number grammar. -/
def isDigitChar (c : Char) : Bool :=
  '0' ≤ c ∧ c ≤ '9'

/-- Parse a JSON number at the head of the input, returning its lexeme.
Follows the JSON grammar: optional minus, integer part without leading
zeros, optional fraction, optional exponent. -/
def pNumber (cs : List Char) : Option (String × List Char) :=
  let (sign, afterSign) :=
    match cs with
    | '-' :: rest => ([('-' : Char)], rest)
    | _ => ([], cs)
  let intPart := afterSign.takeWhile isDigitChar
  let afterInt := afterSign.dropWhile isDigitChar
  if intPart.isEmpty then none
  else if intPart.length > 1 ∧ intPart.headD '0' = '0' then none
  else
    let (fracPart, afterFrac) :=
      match afterInt with
      | '.' :: rest =>
        let ds := rest.takeWhile isDigitChar
        if ds.isEmpty then (none, afterInt)
        else (some ('.' :: ds), rest.dropWhile isDigitChar)
      | _ => (none, afterInt)
    match fracPart, afterInt with
    | none, '.' :: _ => none
    | _, _ =>
      let fracChars := fracPart.getD []
      let (expPart, afterExp) :=
        match afterFrac with
        | e :: rest =>
          if e = 'e' ∨ e = 'E' then
            let (sg, rest2) :=
              match rest with
              | s :: r2 => if s = '+' ∨ s = '-' then ([s], r2) else ([], rest)
              | [] => ([], rest)
            let ds := rest2.takeWhile isDigitChar
            if ds.isEmpty then (none, afterFrac)
            else (some (e :: (sg ++ ds)), rest2.dropWhile isDigitChar)
          else (none, afterFrac)
        | [] => (none, afterFrac)
      match expPart, afterFrac with
      | none, e :: _ =>
        if e = 'e' ∨ e = 'E' then none
        else some (String.mk (sign ++ intPart ++ fracChars), afterFrac)
      | none, [] => some (String.mk (sign ++ intPart ++ fracChars), afterFrac)
      | some ec, _ =>
        some (String.mk (sign ++ intPart ++ fracChars ++ ec), afterExp)

mutual

/-- Parse a JSON value. `fuel` only bounds the recursion depth of the
mutual block; `jsonParse` supplies enough for any input it is given. -/
def pValue : Nat → List Char → Option (Json × List Char)
  | 0, _ => none
  | f + 1, cs =>
    match skipWs cs with
    | 'n' :: 'u' :: 'l' :: 'l' :: rest => some (.null, rest)
    | 't' :: 'r' :: 'u' :: 'e' :: rest => some (.bool true, rest)
    | 'f' :: 'a' :: 'l' :: 's' :: 'e' :: rest => some (.bool false, rest)
    | '"' :: rest =>
      match pString rest with
      | some (s, rem) => some (.str s, rem)
      | none => none
    | '\x7b' :: rest =>
      match skipWs rest with
      | '\x7d' :: rem => some (.obj [], rem)
      | rest2 => pMembers f rest2 []
    | '[' :: rest =>
      match skipWs rest with
      | ']' :: rem => some (.arr [], rem)
      | rest2 => pElems f rest2 []
    | other =>
      match pNumber other with
      | some (lex, rem) => some (.num lex, rem)
      | none => none

/-- Parse the members of a JSON object, positioned at a key. -/
def pMembers : Nat → List Char → List (String × Json) → Option (Json × List Char)
  | 0, _, _ => none
  | f + 1, cs, acc =>
    match cs with
    | '"' :: rest =>
      match pString rest with
      | none => none
      | some (key, rest1) =>
        match skipWs rest1 with
        | ':' :: rest2 =>
          match pValue f rest2 with
          | none => none
          | some (v, rest3) =>
            match skipWs rest3 with
            | ',' :: rest4 => pMembers f (skipWs rest4) (acc ++ [(key, v)])
            | '\x7d' :: rest4 => some (.obj (acc ++ [(key, v)]), rest4)
            | _ => none
        | _ => none
    | _ => none

/-- Parse the elements of a JSON array, positioned at a value. -/
def pElems : Nat → List Char → List Json → Option (Json × List Char)
  | 0, _, _ => none
  | f + 1, cs, acc =>
    match pValue f cs with
    | none => none
    | some (v, rest) =>
      match skipWs rest with
      | ',' :: rest2 => pElems f rest2 (acc ++ [v])
      | ']' :: rest2 => some (.arr (acc ++ [v]), rest2)
      | _ => none

end

/-- Model of `JSON.parse` on the decoded payload: parse one value
surrounded by whitespace; `none` models a thrown `SyntaxError`. -/
def jsonParse (cs : List Char) : Option Json :=
  match pValue (2 * cs.length + 4) cs with
  | some (v, rest) => if skipWs rest = [] then some v else none
  | none => none

/-- ASCII whitespace removed by the forgiving-base64 decode of `atob`. -/
def b64Ws (c : Char) : Bool :=
  c = ' ' || c = '\t' || c = '\n' || c = '\x0c' || c = '\r'

/-- Value of a base64 alphabet character. -/
def b64Val (c : Char) : Option Nat :=
  if 'A' ≤ c ∧ c ≤ 'Z' then some (c.toNat - 65)
  else if 'a' ≤ c ∧ c ≤ 'z' then some (c.toNat - 97 + 26)
  else if '0' ≤ c ∧ c ≤ '9' then some (c.toNat - 48 + 52)
  else if c = '+' then some 62
  else if c = '/' then some 63
  else none

/-- Remove up to two trailing `=` padding chars. -/
def b64StripPad (cs : List Char) : List Char :=
  match cs.reverse with
  | '=' :: '=' :: rest => rest.reverse
  | '=' :: rest => rest.reverse
  | _ => cs

/-- Decode a run of base64 values into bytes: full groups of four give
three bytes; a final group of two or three gives one or two bytes with the
spare low bits discarded, as the forgiving decode specifies. -/
def b64Groups : List Char → Option (List Nat)
  | [] => some []
  | c1 :: c2 :: c3 :: c4 :: rest => do
    let v1 ← b64Val c1
    let v2 ← b64Val c2
    let v3 ← b64Val c3
    let v4 ← b64Val c4
    let tail ← b64Groups rest
    pure ((v1 * 4 + v2 / 16) :: ((v2 % 16) * 16 + v3 / 4) :: ((v3 % 4) * 64 + v4) :: tail)
  | [c1, c2, c3] => do
    let v1 ← b64Val c1
    let v2 ← b64Val c2
    let v3 ← b64Val c3
    pure [v1 * 4 + v2 / 16, (v2 % 16) * 16 + v3 / 4]
  | [c1, c2] => do
    let v1 ← b64Val c1
    let v2 ← b64Val c2
    pure [v1 * 4 + v2 / 16]
  | [_] => none

/-- Model of the host `atob`: the WHATWG forgiving-base64 decode, returning
the decoded bytes as chars (each below 256, matching the latin-1 string
`atob` yields). `none` models a thrown `InvalidCharacterError`. -/
def atob (cs : List Char) : Option (List Char) :=
  let data := cs.filter (fun c => !b64Ws c)
  let data := if data.length % 4 = 0 then b64StripPad data else data
  if data.length % 4 = 1 then none
  else
    match b64Groups data with
    | some bytes => some (bytes.map Char.ofNat)
    | none => none

/-- Split a char list at every `'.'`, as `String.prototype.split` with a
one-char separator does: `n` dots give `n + 1` pieces. -/
def splitDot : List Char → List (List Char)
  | [] => [[]]
  | c :: cs =>
    if c = '.' then [] :: splitDot cs
    else
      match splitDot cs with
      | [] => [[c]]
      | p :: ps => (c :: p) :: ps

/-- Replacement done by `parseCustomClaims` before decoding:
`'-'` to `'+'` and `'_'` to `'/'`. -/
def b64urlChar (c : Char) : Char :=
  if c = '-' then '+' else if c = '_' then '/' else c

/-- JavaScript string-keyed property access on a JSON value: on an object
it is lookup (later duplicate keys shadow earlier ones, as after
`JSON.parse`); on every other value it yields `undefined` (`none`).
The keys looked up in this file are never array index or `length`
properties, so arrays also yield `none`. -/
def jsGet (v : Json) (key : String) : Option Json :=
  match v with
  | .obj members => members.foldl (fun r p => if p.1 = key then some p.2 else r) none
  | _ => none

/-- Key under which Hasura places its custom claims. -/
def hasuraKey : String := "https://hasura.io/jwt/claims"

/-- Key of the default-role claim. -/
def roleKey : String := "x-hasura-default-role"

/-- Model of `parseCustomClaims` from `AuthContext.tsx`. The result is the
`role` field of the returned object: `none` when the role is absent
(`undefined`), `some v` when the role is the claim value `v`. Every branch
of the source that throws inside the `try` lands in the `catch`, which
returns the empty object, i.e. `none`. -/
def parseCustomClaims (idToken : String) : Option Json :=
  match (splitDot idToken.data)[1]? with
  | none => none
  | some payload =>
    if payload.isEmpty then none
    else
      match atob (payload.map b64urlChar) with
      | none => none
      | some decoded =>
        match jsonParse decoded with
        | none => none
        | some claims =>
          match claims with
          | .null => none
          | _ =>
            match jsGet claims hasuraKey with
            | none => none
            | some inner =>
              match inner with
              | .null => none
              | _ => jsGet inner roleKey

/-! Token storage (`storeToken`, `isTokenExpired`, `clearStoredTokens` of
`AuthContext.tsx`). `expo-secure-store` is modelled as an association list
with first-match lookup; `Date.now()` is an explicit `Nat` parameter. -/

/-- Secure key-value storage state. -/
def Store := List (String × String)

/-- Model of `SecureStore.setItemAsync`: the new pair shadows old ones. -/
def Store.setItem (st : Store) (k v : String) : Store :=
  (k, v) :: st

/-- Model of `SecureStore.getItemAsync`. -/
def Store.getItem (st : Store) (k : String) : Option String :=
  (List.find? (fun p => p.1 = k) st).map (fun p => p.2)

/-- Model of `SecureStore.deleteItemAsync`. -/
def Store.deleteItem (st : Store) (k : String) : Store :=
  List.filter (fun p => p.1 ≠ k) st

/-- Empty storage. -/
def Store.empty : Store := []

/-- Storage key of the token, `TOKEN_KEY` in the source. -/
def TOKEN_KEY : String := "auth_token"

/-- Storage key of the expiry, `TOKEN_EXPIRY_KEY` in the source. -/
def TOKEN_EXPIRY_KEY : String := "auth_token_expiry"

/-- Character of a decimal digit value. -/
def decChar (d : Nat) : Char := Char.ofNat (48 + d)

/-- Little-endian base-10 digits, by repeated division; the fuel makes the
recursion structural, and any fuel above `n` is enough. -/
def decDigitsAux : Nat → Nat → List Nat
  | 0, _ => []
  | f + 1, n => if n = 0 then [] else n % 10 :: decDigitsAux f (n / 10)

/-- With enough fuel, `decDigitsAux` computes `Nat.digits 10`. -/
theorem decDigitsAux_eq_digits :
    ∀ fuel n, n < fuel → decDigitsAux fuel n = Nat.digits 10 n := by
  intro fuel
  induction fuel with
  | zero => intro n hn; omega
  | succ f ih =>
    intro n hn
    unfold decDigitsAux
    by_cases h0 : n = 0
    · rw [if_pos h0, h0, Nat.digits_zero]
    · have hdiv : n / 10 < n := Nat.div_lt_self (Nat.pos_of_ne_zero h0) (by norm_num)
      rw [if_neg h0, ih (n / 10) (by omega)]
      conv_rhs => rw [Nat.digits_def' (by norm_num : (1 : Nat) < 10) (Nat.pos_of_ne_zero h0)]

/-- Decimal string of a natural number, as `Number.prototype.toString`
renders the integer `expiryTime`. -/
def natToDecimalString (n : Nat) : String :=
  if n = 0 then ("0") else String.mk (((decDigitsAux (n + 1) n).reverse).map decChar)

/-- The rendering agrees with the `Nat.digits` description. -/
theorem natToDecimalString_eq_digits (n : Nat) :
    natToDecimalString n =
      if n = 0 then ("0") else String.mk (((Nat.digits 10 n).reverse).map decChar) := by
  unfold natToDecimalString
  rw [decDigitsAux_eq_digits (n + 1) n (Nat.lt_succ_self n)]

/-- Whitespace skipped by `parseInt`. -/
def jsWs (c : Char) : Bool :=
  c = ' ' || c = '\t' || c = '\n' || c = '\r' || c = '\x0b' || c = '\x0c'

/-- Value of a run of decimal digit chars, most significant first. -/
def digitsVal (cs : List Char) : Nat :=
  cs.foldl (fun a c => 10 * a + (c.toNat - 48)) 0

/-- Model of `parseInt(s, 10)`: skip whitespace, optional sign, then the
leading run of digits; `none` models `NaN`. Trailing junk is ignored, as
`parseInt` ignores it. -/
def jsParseInt (s : String) : Option Int :=
  let t := s.data.dropWhile jsWs
  let neg : Bool := t.headD ' ' = '-'
  let signed : Bool := t.headD ' ' = '-' ∨ t.headD ' ' = '+'
  let t2 := if signed then t.tail else t
  let ds := t2.takeWhile isDigitChar
  if ds.isEmpty then none
  else
    let v : Int := Int.ofNat (digitsVal ds)
    some (if neg then -v else v)

/-- Model of `storeToken` at current time `now`: store the token and an
expiry of one hour from now. -/
def storeToken (now : Nat) (token : String) (st : Store) : Store :=
  (st.setItem TOKEN_KEY token).setItem TOKEN_EXPIRY_KEY
    (natToDecimalString (now + 3600 * 1000))

/-- Model of `isTokenExpired` at current time `now`: expired when no (or an
empty) expiry is stored, or when `now` has reached the parsed expiry. A
`NaN` parse makes the comparison false. -/
def isTokenExpired (now : Nat) (st : Store) : Bool :=
  match st.getItem TOKEN_EXPIRY_KEY with
  | none => true
  | some expiryStr =>
    if expiryStr = "" then true
    else
      match jsParseInt expiryStr with
      | none => false
      | some expiry => (now : Int) ≥ expiry

/-- Model of `clearStoredTokens`: delete both keys. -/
def clearStoredTokens (st : Store) : Store :=
  (st.deleteItem TOKEN_KEY).deleteItem TOKEN_EXPIRY_KEY

/-- Digit characters satisfy the predicates `jsParseInt` tests, and their
value is recovered by subtracting 48. -/
theorem decChar_props (d : Nat) (hd : d < 10) :
    jsWs (decChar d) = false ∧ isDigitChar (decChar d) = true ∧
    decChar d ≠ '-' ∧ decChar d ≠ '+' ∧ (decChar d).toNat - 48 = d := by
  interval_cases d <;> exact ⟨rfl, rfl, by decide, by decide, rfl⟩

/-- Taking a leading run keeps the whole list when every element satisfies
the predicate. -/
theorem takeWhile_all {p : Char → Bool} :
    ∀ l : List Char, (∀ c ∈ l, p c = true) → l.takeWhile p = l := by
  intro l
  induction l with
  | nil => intro _; rfl
  | cons c cs ih =>
    intro h
    rw [List.takeWhile_cons, h c (List.mem_cons_self c cs),
      ih (fun x hx => h x (List.mem_cons_of_mem c hx))]
    simp

/-- Reading back the reversed digit list of `n` under `digitsVal` recovers
the number. -/
theorem digitsVal_revMap (ds : List Nat) (h : ∀ d ∈ ds, d < 10) :
    digitsVal ((ds.reverse).map decChar) = Nat.ofDigits 10 ds := by
  induction ds with
  | nil => rfl
  | cons d tl ih =>
    have hd : d < 10 := h d (List.mem_cons_self d tl)
    have htl : ∀ x ∈ tl, x < 10 := fun x hx => h x (List.mem_cons_of_mem d hx)
    have hchar : (decChar d).toNat - 48 = d := (decChar_props d hd).2.2.2.2
    simp only [List.reverse_cons, List.map_append, List.map_cons, List.map_nil]
    unfold digitsVal
    rw [List.foldl_append]
    unfold digitsVal at ih
    rw [ih htl, Nat.ofDigits_cons]
    simp only [List.foldl_cons, List.foldl_nil, hchar]
    ring

/-- Parsing back the decimal rendering of a natural number recovers it. -/
theorem jsParseInt_natToDecimalString (n : Nat) :
    jsParseInt (natToDecimalString n) = some (Int.ofNat n) := by
  by_cases h0 : n = 0
  · subst h0; rfl
  · have hds : Nat.digits 10 n ≠ [] := Nat.digits_ne_nil_iff_ne_zero.mpr h0
    have hmem : ∀ c ∈ ((Nat.digits 10 n).reverse).map decChar,
        ∃ d, d < 10 ∧ c = decChar d := by
      intro c hc
      obtain ⟨d, hdmem, hdc⟩ := List.mem_map.mp hc
      exact ⟨d, Nat.digits_lt_base (by norm_num) (List.mem_reverse.mp hdmem), hdc.symm⟩
    obtain ⟨c, rest, hcons⟩ :
        ∃ c rest, ((Nat.digits 10 n).reverse).map decChar = c :: rest := by
      cases hl : ((Nat.digits 10 n).reverse).map decChar with
      | nil =>
        exfalso
        have := List.map_eq_nil_iff.mp hl
        exact hds (List.reverse_eq_nil_iff.mp this)
      | cons c rest => exact ⟨c, rest, rfl⟩
    have hdigall : ∀ x ∈ c :: rest, isDigitChar x = true := by
      intro x hx
      rw [← hcons] at hx
      obtain ⟨d, hd, hxd⟩ := hmem x hx
      rw [hxd]; exact (decChar_props d hd).2.1
    obtain ⟨d0, hd0, hcd0⟩ := hmem c (hcons ▸ List.mem_cons_self c rest)
    have hcws : jsWs c = false := hcd0 ▸ (decChar_props d0 hd0).1
    have hcneg : ¬(c = '-') := hcd0 ▸ (decChar_props d0 hd0).2.2.1
    have hcpos : ¬(c = '+') := hcd0 ▸ (decChar_props d0 hd0).2.2.2.1
    have hsig : decide (c = '-' ∨ c = '+') = false := by
      simp [hcneg, hcpos]
    have hneg : decide (c = '-') = false := by simp [hcneg]
    have hval : digitsVal (c :: rest) = n := by
      rw [← hcons, digitsVal_revMap _ (fun d hd => Nat.digits_lt_base (by norm_num) hd),
        Nat.ofDigits_digits]
    rw [natToDecimalString_eq_digits, if_neg h0]
    unfold jsParseInt
    simp only [String.data]
    rw [hcons, List.dropWhile_cons_of_neg (by rw [hcws]; simp)]
    simp only [List.headD_cons, hsig, hneg, Bool.false_eq_true, if_false,
      takeWhile_all (c :: rest) hdigall, List.isEmpty_cons, hval]

/-- Decimal renderings are never the empty string. -/
theorem natToDecimalString_ne_empty (n : Nat) : natToDecimalString n ≠ "" := by
  rw [natToDecimalString_eq_digits]
  by_cases h0 : n = 0
  · rw [if_pos h0]; decide
  · rw [if_neg h0]
    intro hcontra
    have hds : Nat.digits 10 n ≠ [] := Nat.digits_ne_nil_iff_ne_zero.mpr h0
    have : ((Nat.digits 10 n).reverse).map decChar = [] := by
      have := congrArg String.data hcontra
      simpa using this
    exact hds (List.reverse_eq_nil_iff.mp (List.map_eq_nil_iff.mp this))

/-- C3: after `storeToken t` at time `T`, the token key holds `t` and the
expiry key holds the rendering of `T + 3600·1000`; `isTokenExpired` at time
`now` is `true` exactly when `now` has reached `T + 3600·1000` (so `false`
strictly before it); and on any store without an expiry value,
`isTokenExpired` is `true`. -/
theorem storeToken_isTokenExpired (t : String) (T now : Nat) (st st0 : Store)
    (h0 : st0.getItem TOKEN_EXPIRY_KEY = none) :
    (storeToken T t st).getItem TOKEN_KEY = some t ∧
    (storeToken T t st).getItem TOKEN_EXPIRY_KEY =
      some (natToDecimalString (T + 3600 * 1000)) ∧
    (isTokenExpired now (storeToken T t st) = true ↔ T + 3600 * 1000 ≤ now) ∧
    isTokenExpired now st0 = true := by
  have e1 : decide (TOKEN_EXPIRY_KEY = TOKEN_KEY) = false := by decide
  have e2 : decide ((TOKEN_KEY : String) = TOKEN_KEY) = true := by decide
  have e3 : decide (TOKEN_EXPIRY_KEY = TOKEN_EXPIRY_KEY) = true := by decide
  have hget1 : (storeToken T t st).getItem TOKEN_KEY = some t := by
    unfold storeToken Store.setItem Store.getItem
    simp [List.find?, e1, e2]
  have hget2 : (storeToken T t st).getItem TOKEN_EXPIRY_KEY =
      some (natToDecimalString (T + 3600 * 1000)) := by
    unfold storeToken Store.setItem Store.getItem
    simp [List.find?, e3]
  refine ⟨hget1, hget2, ?_, ?_⟩
  · unfold isTokenExpired
    rw [hget2]
    show (if natToDecimalString (T + 3600 * 1000) = "" then true
          else match jsParseInt (natToDecimalString (T + 3600 * 1000)) with
            | none => false
            | some expiry => decide ((now : Int) ≥ expiry)) = true ↔
        T + 3600 * 1000 ≤ now
    rw [if_neg (natToDecimalString_ne_empty _), jsParseInt_natToDecimalString]
    show decide ((now : Int) ≥ ((T + 3600 * 1000 : Nat) : Int)) = true ↔
        T + 3600 * 1000 ≤ now
    simp only [ge_iff_le, decide_eq_true_eq]
    exact Nat.cast_le
  · unfold isTokenExpired
    rw [h0]

/-- Witness for C3 at concrete values: token `"tok"`, stored at time 1000,
queried at times 3601000 (expired) and the empty store. -/
theorem storeToken_isTokenExpired_witness :
    (Store.empty.getItem TOKEN_EXPIRY_KEY = none) ∧
    ((storeToken 1000 ("tok") Store.empty).getItem TOKEN_KEY = some ("tok") ∧
    (storeToken 1000 ("tok") Store.empty).getItem TOKEN_EXPIRY_KEY =
      some (natToDecimalString (1000 + 3600 * 1000)) ∧
    (isTokenExpired 3601000 (storeToken 1000 ("tok") Store.empty) = true ↔
      1000 + 3600 * 1000 ≤ 3601000) ∧
    isTokenExpired 3601000 Store.empty = true) :=
  ⟨rfl, storeToken_isTokenExpired ("tok") 1000 3601000 Store.empty Store.empty rfl⟩

/-- Concrete JWT-shaped token whose payload segment is the base64url
encoding of a Hasura claims object with default role `user`. -/
def mockToken : String :=
  "h.eyJodHRwczovL2hhc3VyYS5pby9qd3QvY2xhaW1zIjp7IngtaGFzdXJhLWRlZmF1bHQtcm9sZSI6InVzZXIifX0=.s"

/-- Payload segment of `mockToken`. -/
def mockPayload : List Char :=
  String.data ("eyJodHRwczovL2hhc3VyYS5pby9qd3QvY2xhaW1zIjp7IngtaGFzdXJhLWRlZmF1bHQtcm9sZSI6InVzZXIifX0=")

/-- Decoded payload of `mockToken`: the claims JSON text. -/
def mockDecoded : List Char :=
  String.data ("\x7b\"https://hasura.io/jwt/claims\":\x7b\"x-hasura-default-role\":\"user\"\x7d\x7d")

/-- Members of the inner claims object of `mockToken`. -/
def mockInner : List (String × Json) := [(roleKey, Json.str ("user"))]

/-- Members of the top-level claims object of `mockToken`. -/
def mockClaims : List (String × Json) := [(hasuraKey, Json.obj mockInner)]

/-- C1: whenever the second dot-separated segment of the token base64url-
decodes (after mapping minus to plus and underscore to slash) to a JSON
object holding, under the Hasura claims key, an object with the
default-role field, `parseCustomClaims` returns exactly that field's value
as the role. -/
theorem parseCustomClaims_extracts (tok : String) (payload decoded : List Char)
    (m inner : List (String × Json)) (v : Json)
    (h1 : (splitDot tok.data)[1]? = some payload)
    (h2 : atob (payload.map b64urlChar) = some decoded)
    (h3 : jsonParse decoded = some (Json.obj m))
    (h4 : jsGet (Json.obj m) hasuraKey = some (Json.obj inner))
    (h5 : jsGet (Json.obj inner) roleKey = some v) :
    parseCustomClaims tok = some v := by
  have hpay : payload.isEmpty = false := by
    cases payload with
    | nil =>
      exfalso
      simp only [List.map_nil] at h2
      rw [show atob [] = some [] from rfl] at h2
      injection h2 with h2'
      rw [← h2'] at h3
      rw [show jsonParse [] = none from rfl] at h3
      exact Option.noConfusion h3
    | cons c cs => rfl
  unfold parseCustomClaims
  rw [h1]
  simp only [hpay, Bool.false_eq_true, if_false, h2, h3, h4, h5]

/-- Witness for C1 at the concrete token `mockToken`. -/
theorem parseCustomClaims_extracts_witness :
    parseCustomClaims mockToken = some (Json.str ("user")) :=
  parseCustomClaims_extracts mockToken mockPayload mockDecoded mockClaims mockInner
    (Json.str ("user")) rfl rfl rfl rfl rfl

/-- C7: `parseCustomClaims` is total by construction (every throwing branch
of the source lands in the `catch`, which returns the empty object, i.e. an
absent role); substantively, the role is present only when the whole
extraction chain succeeds, so on every failing input the role is absent. -/
theorem parseCustomClaims_some_inv (s : String) (v : Json)
    (h : parseCustomClaims s = some v) :
    ∃ payload decoded claims inner,
      (splitDot s.data)[1]? = some payload ∧
      payload ≠ [] ∧
      atob (payload.map b64urlChar) = some decoded ∧
      jsonParse decoded = some claims ∧
      claims ≠ Json.null ∧
      jsGet claims hasuraKey = some inner ∧
      inner ≠ Json.null ∧
      jsGet inner roleKey = some v := by
  unfold parseCustomClaims at h
  split at h
  · exact Option.noConfusion h
  next payload h1 =>
    split at h
    · exact Option.noConfusion h
    next hpe =>
      have hpne : payload ≠ [] := by
        intro hp
        exact hpe (by simp [hp])
      split at h
      · exact Option.noConfusion h
      next decoded h2 =>
        split at h
        · exact Option.noConfusion h
        next claims h3 =>
          split at h
          · exact Option.noConfusion h
          next hcnull =>
            split at h
            · exact Option.noConfusion h
            next inner h4 =>
              split at h
              · exact Option.noConfusion h
              next hinull =>
                exact ⟨payload, decoded, claims, inner, h1, hpne, h2, h3,
                  fun hc => hcnull hc, h4, fun hc => hinull hc, h⟩

/-- Witness for C7 at the concrete token `mockToken`. -/
theorem parseCustomClaims_some_inv_witness :
    ∃ payload decoded claims inner,
      (splitDot mockToken.data)[1]? = some payload ∧
      payload ≠ [] ∧
      atob (payload.map b64urlChar) = some decoded ∧
      jsonParse decoded = some claims ∧
      claims ≠ Json.null ∧
      jsGet claims hasuraKey = some inner ∧
      inner ≠ Json.null ∧
      jsGet inner roleKey = some (Json.str ("user")) :=
  parseCustomClaims_some_inv mockToken (Json.str ("user")) rfl

/-! Auth service layer (`auth.types.ts`, `auth.service.ts`). Each Firebase
SDK call is an `Except` value supplied by the environment; the wrappers are
the repository's code around those calls. -/

/-- Firebase user object, with the fields `mapFirebaseUser` reads. -/
structure FirebaseUser where
  uid : String
  email : Option String
  displayName : Option String
  photoURL : Option String
  emailVerified : Bool
  phoneNumber : Option String

/-- App user, `User` of `auth.types.ts`. -/
structure User where
  uid : String
  email : Option String
  displayName : Option String
  photoURL : Option String
  emailVerified : Bool
  phoneNumber : Option String
  role : Option String := none
  createdAt : Option String := none

/-- Value caught from a rejected SDK call: an object with optional `code`
and `message` string properties, as `createAuthError` reads it. -/
structure JsError where
  code : Option String
  message : Option String

/-- App auth error, `AuthError` of `auth.types.ts`. -/
structure AuthError where
  code : String
  message : String
  originalError : JsError

/-- Sign-up parameters. -/
structure SignUpParams where
  email : String
  password : String
  displayName : Option String := none

/-- Sign-in parameters. -/
structure SignInParams where
  email : String
  password : String

/-- Error-code message table, `AUTH_ERROR_MESSAGES` of `auth.types.ts`. -/
def AUTH_ERROR_MESSAGES : List (String × String) := [
  ("auth/email-already-in-use", "This email is already registered. Please sign in instead."),
  ("auth/invalid-email", "Please enter a valid email address."),
  ("auth/operation-not-allowed", "This sign-in method is not enabled. Please contact support."),
  ("auth/weak-password", "Password is too weak. Use at least 8 characters with letters and numbers."),
  ("auth/user-disabled", "This account has been disabled. Please contact support."),
  ("auth/user-not-found", "No account found with this email. Please check or sign up."),
  ("auth/wrong-password", "Incorrect password. Please try again or reset your password."),
  ("auth/invalid-credential", "Invalid email or password. Please try again."),
  ("auth/too-many-requests", "Too many failed attempts. Please try again later."),
  ("auth/network-request-failed", "Network error. Please check your connection and try again."),
  ("auth/popup-blocked", "Pop-up was blocked. Please allow pop-ups and try again."),
  ("auth/popup-closed-by-user", "Sign-in was cancelled. Please try again."),
  ("auth/cancelled-popup-request", "Sign-in was cancelled. Please try again."),
  ("auth/account-exists-with-different-credential", "An account already exists with this email using a different sign-in method."),
  ("auth/requires-recent-login", "This operation requires recent authentication. Please sign in again.")]

/-- Fallback message of `createAuthError`. -/
def genericErrorMessage : String := "An unexpected error occurred. Please try again."

/-- Table lookup, `AUTH_ERROR_MESSAGES[code]`. -/
def lookupErrorMessage (code : String) : Option String :=
  (AUTH_ERROR_MESSAGES.find? (fun p => p.1 = code)).map (fun p => p.2)

/-- Model of `mapFirebaseUser`. -/
def mapFirebaseUser (fu : FirebaseUser) : User :=
  { uid := fu.uid, email := fu.email, displayName := fu.displayName,
    photoURL := fu.photoURL, emailVerified := fu.emailVerified,
    phoneNumber := fu.phoneNumber }

/-- Model of `createAuthError`: the JavaScript `||` treats an empty string
as falsy, for the code as well as for the looked-up message. -/
def createAuthError (e : JsError) : AuthError :=
  let code := match e.code with
    | none => "auth/unknown"
    | some c => if c = "" then ("auth/unknown") else c
  let message := match lookupErrorMessage code with
    | none => genericErrorMessage
    | some m => if m = "" then genericErrorMessage else m
  { code := code, message := message, originalError := e }

/-- Model of `signUpWithEmail`: `createRes` is the outcome of
`createUserWithEmailAndPassword`, `updateRes` of `updateProfile`. The
profile update runs only under `if (displayName)`, so only for a present,
non-empty display name. -/
def signUpWithEmail (p : SignUpParams) (createRes : Except JsError FirebaseUser)
    (updateRes : Except JsError Unit) : Except AuthError User :=
  match createRes with
  | .error e => .error (createAuthError e)
  | .ok fu =>
    match p.displayName with
    | none => .ok (mapFirebaseUser fu)
    | some d =>
      if d = "" then .ok (mapFirebaseUser fu)
      else
        match updateRes with
        | .error e => .error (createAuthError e)
        | .ok _ => .ok (mapFirebaseUser fu)

/-- Model of `signInWithEmail`: `res` is the outcome of
`signInWithEmailAndPassword`. -/
def signInWithEmail (p : SignInParams) (res : Except JsError FirebaseUser) :
    Except AuthError User :=
  match res with
  | .error e => .error (createAuthError e)
  | .ok fu => .ok (mapFirebaseUser fu)

/-- Error thrown by the Google stub: a plain `Error`, so no `code`
property. -/
def googleStubError : JsError :=
  { code := none,
    message := some ("Google Sign-In not yet implemented. Use expo-auth-session for implementation.") }

/-- Error thrown by the Apple stub. -/
def appleStubError : JsError :=
  { code := none,
    message := some ("Apple Sign-In not yet implemented. Use expo-apple-authentication for implementation.") }

/-- Model of `signInWithGoogle`: the body unconditionally throws, and the
`catch` rethrows `createAuthError` of that error. -/
def signInWithGoogle : Except AuthError User :=
  .error (createAuthError googleStubError)

/-- Model of `signInWithApple`. -/
def signInWithApple : Except AuthError User :=
  .error (createAuthError appleStubError)

/-- Model of the service `signOut`: `res` is the outcome of
`firebaseSignOut`. -/
def signOutService (res : Except JsError Unit) : Except AuthError Unit :=
  match res with
  | .error e => .error (createAuthError e)
  | .ok _ => .ok ()

/-- Model of the service `getIdToken`: `null` when no user is signed in,
otherwise the SDK outcome `env`, with a rejection wrapped by
`createAuthError`. -/
def getIdTokenService (currentUser : Option User)
    (env : Except JsError String) : Except AuthError (Option String) :=
  match currentUser with
  | none => .ok none
  | some _ =>
    match env with
    | .ok t => .ok (some t)
    | .error e => .error (createAuthError e)

/-- Sample user for witnesses. -/
def sampleFU : FirebaseUser :=
  { uid := "uid-1", email := some ("a@b.c"), displayName := some ("Ann"),
    photoURL := none, emailVerified := true, phoneNumber := none }

/-- Unknown-code auth error wrapping the Google stub error. -/
def googleStubAuthError : AuthError :=
  { code := "auth/unknown", message := genericErrorMessage,
    originalError := googleStubError }

/-- Unknown-code auth error wrapping the Apple stub error. -/
def appleStubAuthError : AuthError :=
  { code := "auth/unknown", message := genericErrorMessage,
    originalError := appleStubError }

/-- C2: both social sign-in operations always fail with an `AuthError`
whose code is `auth/unknown`, and never return a user. -/
theorem social_sign_in_stubbed :
    signInWithGoogle = .error googleStubAuthError ∧
    signInWithApple = .error appleStubAuthError ∧
    (∀ u : User, signInWithGoogle ≠ .ok u) ∧
    (∀ u : User, signInWithApple ≠ .ok u) := by
  have hg : signInWithGoogle = .error googleStubAuthError := rfl
  have ha : signInWithApple = .error appleStubAuthError := rfl
  refine ⟨hg, ha, fun u h => ?_, fun u h => ?_⟩
  · rw [hg] at h; exact Except.noConfusion h
  · rw [ha] at h; exact Except.noConfusion h

/-- Witness for C2: neither stub returns the sample user. -/
theorem social_sign_in_stubbed_witness :
    signInWithGoogle ≠ Except.ok (mapFirebaseUser sampleFU) ∧
    signInWithApple ≠ Except.ok (mapFirebaseUser sampleFU) :=
  ⟨social_sign_in_stubbed.2.2.1 (mapFirebaseUser sampleFU),
   social_sign_in_stubbed.2.2.2 (mapFirebaseUser sampleFU)⟩

/-- Every message in the table is non-empty, so the falsy check on the
looked-up message never fires. -/
theorem messages_nonempty : ∀ p ∈ AUTH_ERROR_MESSAGES, p.2 ≠ "" := by decide

/-- Error with a present but empty `code` property. -/
def emptyCodeError : JsError := { code := some (""), message := none }

/-- Counterexample to C5 as stated: the error's `code` is present (the
empty string), yet `createAuthError` does not take the code from the
error — the `||` default also fires on the empty string. -/
theorem createAuthError_code_cex :
    emptyCodeError.code = some ("") ∧
    (createAuthError emptyCodeError).code ≠ "" ∧
    (createAuthError emptyCodeError).code = "auth/unknown" := by
  refine ⟨rfl, ?_, rfl⟩
  intro h
  exact absurd ((rfl : (createAuthError emptyCodeError).code = "auth/unknown") ▸ h)
    (by decide)

/-- C5 (amended): the email wrappers return `mapFirebaseUser` of the SDK
user on success and throw `createAuthError` of the SDK error exactly when
the SDK call rejects; the resulting code is the error's code, defaulting to
`auth/unknown` when absent or empty, and the message is the table entry for
the resulting code, with the generic fallback for codes not in the table. -/
theorem authService_error_mapping (p : SignInParams) (q : SignUpParams)
    (signInRes createRes : Except JsError FirebaseUser)
    (updateRes : Except JsError Unit) (e : JsError) :
    (∀ fu, signInRes = .ok fu →
      signInWithEmail p signInRes = .ok (mapFirebaseUser fu)) ∧
    (∀ err, signInRes = .error err →
      signInWithEmail p signInRes = .error (createAuthError err)) ∧
    (∀ err, createRes = .error err →
      signUpWithEmail q createRes updateRes = .error (createAuthError err)) ∧
    (∀ fu, createRes = .ok fu → q.displayName = none →
      signUpWithEmail q createRes updateRes = .ok (mapFirebaseUser fu)) ∧
    (∀ fu d, createRes = .ok fu → q.displayName = some d → d ≠ "" →
      updateRes = .ok () →
      signUpWithEmail q createRes updateRes = .ok (mapFirebaseUser fu)) ∧
    (∀ fu d err, createRes = .ok fu → q.displayName = some d → d ≠ "" →
      updateRes = .error err →
      signUpWithEmail q createRes updateRes = .error (createAuthError err)) ∧
    (∀ c, e.code = some c → c ≠ "" → (createAuthError e).code = c) ∧
    (e.code = none ∨ e.code = some ("") → (createAuthError e).code = "auth/unknown") ∧
    (createAuthError e).message =
      ((lookupErrorMessage (createAuthError e).code).getD genericErrorMessage) ∧
    (createAuthError e).originalError = e := by
  refine ⟨fun fu h => by rw [h]; rfl,
    fun err h => by rw [h]; rfl,
    fun err h => by rw [h]; rfl,
    fun fu h hd => by unfold signUpWithEmail; rw [h, hd],
    fun fu d h hd hne hu => ?_,
    fun fu d err h hd hne hu => ?_,
    fun c h hne => ?_,
    fun h => ?_, ?_, rfl⟩
  · unfold signUpWithEmail
    rw [h, hd, hu]
    show (if d = "" then Except.ok (mapFirebaseUser fu)
          else Except.ok (mapFirebaseUser fu)) = Except.ok (mapFirebaseUser fu)
    rw [if_neg hne]
  · unfold signUpWithEmail
    rw [h, hd, hu]
    show (if d = "" then Except.ok (mapFirebaseUser fu)
          else Except.error (createAuthError err)) = Except.error (createAuthError err)
    rw [if_neg hne]
  · unfold createAuthError
    rw [h]
    show (if c = "" then ("auth/unknown") else c) = c
    rw [if_neg hne]
  · rcases h with h | h
    · unfold createAuthError
      rw [h]
    · unfold createAuthError
      rw [h]
      rfl
  · show (match lookupErrorMessage (createAuthError e).code with
      | none => genericErrorMessage
      | some m => if m = "" then genericErrorMessage else m) =
      (lookupErrorMessage (createAuthError e).code).getD genericErrorMessage
    cases hfind : lookupErrorMessage (createAuthError e).code with
    | none => rfl
    | some m =>
      have hne : m ≠ "" := by
        obtain ⟨pr, hpr, hpr2⟩ := Option.map_eq_some'.mp hfind
        have hpr2' : pr.2 = m := hpr2
        rw [← hpr2']
        exact messages_nonempty pr (List.mem_of_find?_eq_some hpr)
      simp only [Option.getD_some, if_neg hne]

/-- Sample SDK error with a known code. -/
def wrongPasswordError : JsError :=
  { code := some ("auth/wrong-password"), message := none }

/-- Auth error the wrapper produces for `wrongPasswordError`. -/
def wrongPasswordAuthError : AuthError :=
  { code := "auth/wrong-password",
    message := "Incorrect password. Please try again or reset your password.",
    originalError := wrongPasswordError }

/-- Sample SDK error with a code absent from the table. -/
def strangeError : JsError := { code := some ("auth/strange"), message := none }

/-- Witness for C5 at concrete inputs: a known error code is mapped to its
table message, an unknown one to the generic message, and success returns
the mapped user. -/
theorem authService_error_mapping_witness :
    signInWithEmail { email := "a@b.c", password := "pw" } (.ok sampleFU) =
      .ok (mapFirebaseUser sampleFU) ∧
    signInWithEmail { email := "a@b.c", password := "pw" }
      (.error wrongPasswordError) = .error wrongPasswordAuthError ∧
    signUpWithEmail { email := "a@b.c", password := "pw" } (.ok sampleFU) (.ok ()) =
      .ok (mapFirebaseUser sampleFU) ∧
    (createAuthError strangeError).message = genericErrorMessage := by
  have h1 := (authService_error_mapping { email := "a@b.c", password := "pw" }
    { email := "a@b.c", password := "pw" } (.ok sampleFU) (.ok sampleFU) (.ok ())
    strangeError).1 sampleFU rfl
  have h2 := (authService_error_mapping { email := "a@b.c", password := "pw" }
    { email := "a@b.c", password := "pw" }
    (.error wrongPasswordError) (.ok sampleFU)
    (.ok ()) strangeError).2.1 wrongPasswordError rfl
  have h3 := (authService_error_mapping { email := "a@b.c", password := "pw" }
    { email := "a@b.c", password := "pw" } (.ok sampleFU) (.ok sampleFU) (.ok ())
    strangeError).2.2.2.1 sampleFU rfl rfl
  have h4 := (authService_error_mapping { email := "a@b.c", password := "pw" }
    { email := "a@b.c", password := "pw" } (.ok sampleFU) (.ok sampleFU) (.ok ())
    strangeError).2.2.2.2.2.2.2.2.1
  exact ⟨h1, by rw [h2]; rfl, h3, by rw [h4]; rfl⟩

/-! Provider state machine (`AuthProvider` of `AuthContext.tsx`). Events
carry the outcomes of the SDK calls they trigger; `sdkUser` models the
Firebase-side `auth.currentUser`, which the service `getIdToken` reads. -/

/-- JavaScript truthiness of a number lexeme: zero iff every digit of the
mantissa (the part before any exponent) is `0`. -/
def numLexemeZero (s : String) : Bool :=
  (s.data.takeWhile (fun c => c ≠ 'e' ∧ c ≠ 'E')).all
    (fun c => !(isDigitChar c) || c = '0')

/-- JavaScript truthiness of a JSON value: `null`, `false`, `0` and the
empty string are falsy; every object and array is truthy. -/
def jsTruthy : Json → Bool
  | .null => false
  | .bool b => b
  | .num lex => !(numLexemeZero lex)
  | .str s => s ≠ ""
  | .arr _ => true
  | .obj _ => true

/-- The role the provider stores: `setRole(parsedRole || null)` turns a
falsy parsed role into `null`. -/
def roleOrNull : Option Json → Option Json
  | none => none
  | some v => if jsTruthy v then some v else none

/-- Combined state of the provider and of the Firebase SDK. -/
structure SysState where
  user : Option User
  role : Option Json
  isLoading : Bool
  error : Option AuthError
  store : Store
  sdkUser : Option User

/-- Initial state: nobody signed in, loading, empty storage. -/
def initState : SysState :=
  { user := none, role := none, isLoading := true, error := none,
    store := Store.empty, sdkUser := none }

/-- The `isAuthenticated` value the provider exposes, `!!user`. -/
def isAuthenticated (s : SysState) : Bool :=
  s.user.isSome

/-- Model of `updateUser`: set the user; with a user, fetch the ID token
(`tokenRes` is the outcome of the service `getIdToken`), store it and parse
the role, swallowing a rejection; with `null`, clear role and storage. -/
def updateUserM (now : Nat) (tokenRes : Except AuthError (Option String))
    (newUser : Option User) (s : SysState) : SysState :=
  match newUser with
  | some u =>
    let s1 := { s with user := some u }
    match tokenRes with
    | .error _ => s1
    | .ok none => s1
    | .ok (some t) =>
      { s1 with store := storeToken now t s1.store,
                role := roleOrNull (parseCustomClaims t) }
  | none =>
    { s with user := none, role := none, store := clearStoredTokens s.store }

/-- Model of the provider `refreshToken`: call the service `getIdToken`
with `forceRefresh`; on a token, store it and set the parsed role; a
rejection rethrows after logging, changing no state. -/
def refreshTokenM (now : Nat) (env : Except JsError String) (s : SysState) :
    SysState :=
  match getIdTokenService s.sdkUser env with
  | .error _ => s
  | .ok none => s
  | .ok (some t) =>
    { s with store := storeToken now t s.store,
             role := roleOrNull (parseCustomClaims t) }

/-- Model of the `AppState` listener: on `active` with a user, refresh
exactly when the stored token is expired. The second component records
whether the service `getIdToken` was called with `forceRefresh = true`. -/
def handleAppStateChange (now : Nat) (next : String)
    (env : Except JsError String) (s : SysState) : SysState × Bool :=
  if next = "active" ∧ s.user.isSome then
    if isTokenExpired now s.store then (refreshTokenM now env s, true)
    else (s, false)
  else (s, false)

/-- Events of the provider: each carries the outcomes of the SDK calls it
triggers and the current time. -/
inductive AuthEvent where
  | signUpEv (q : SignUpParams) (createRes : Except JsError FirebaseUser)
      (updateRes : Except JsError Unit) (tokenEnv : Except JsError String)
      (now : Nat) : AuthEvent
  | signInEv (p : SignInParams) (res : Except JsError FirebaseUser)
      (tokenEnv : Except JsError String) (now : Nat) : AuthEvent
  | googleEv (tokenEnv : Except JsError String) (now : Nat) : AuthEvent
  | appleEv (tokenEnv : Except JsError String) (now : Nat) : AuthEvent
  | signOutEv (res : Except JsError Unit) (now : Nat) : AuthEvent
  | refreshEv (tokenEnv : Except JsError String) (now : Nat) : AuthEvent
  | clearErrorEv : AuthEvent
  | authStateEv (newUser : Option User) (tokenEnv : Except JsError String)
      (now : Nat) : AuthEvent
  | appStateEv (next : String) (tokenEnv : Except JsError String)
      (now : Nat) : AuthEvent

/-- Shared tail of a successful sign-in, sign-up or social sign-in: clear
the error, sign the user in on the SDK side, run `updateUser`, and drop the
loading flag. -/
def afterAuthSuccess (now : Nat) (tokenEnv : Except JsError String)
    (u : User) (s : SysState) : SysState :=
  { updateUserM now (getIdTokenService (some u) tokenEnv) (some u)
      { s with error := none, isLoading := true, sdkUser := some u } with
    isLoading := false }

/-- One provider step. Success of a sign-in/sign-up also signs the user in
on the SDK side (`sdkUser`); in the sign-up case the account is created —
and the SDK user set — even when a later `updateProfile` rejection makes
the wrapper throw. The auth-state listener event delivers the SDK-side
user. -/
def step (e : AuthEvent) (s : SysState) : SysState :=
  match e with
  | .signUpEv q createRes updateRes tokenEnv now =>
    match signUpWithEmail q createRes updateRes with
    | .ok u => afterAuthSuccess now tokenEnv u s
    | .error err =>
      match createRes with
      | .ok fu =>
        { s with sdkUser := some (mapFirebaseUser fu), error := some err,
                 isLoading := false }
      | .error _ => { s with error := some err, isLoading := false }
  | .signInEv p res tokenEnv now =>
    match signInWithEmail p res with
    | .ok u => afterAuthSuccess now tokenEnv u s
    | .error err => { s with error := some err, isLoading := false }
  | .googleEv tokenEnv now =>
    match signInWithGoogle with
    | .ok u => afterAuthSuccess now tokenEnv u s
    | .error err => { s with error := some err, isLoading := false }
  | .appleEv tokenEnv now =>
    match signInWithApple with
    | .ok u => afterAuthSuccess now tokenEnv u s
    | .error err => { s with error := some err, isLoading := false }
  | .signOutEv res now =>
    match signOutService res with
    | .ok _ => updateUserM now (.ok none) none { s with error := none, sdkUser := none }
    | .error err => { s with error := some err }
  | .refreshEv tokenEnv now => refreshTokenM now tokenEnv s
  | .clearErrorEv => { s with error := none }
  | .authStateEv newUser tokenEnv now =>
    { updateUserM now (getIdTokenService newUser tokenEnv) newUser
        { s with sdkUser := newUser } with
      isLoading := false }
  | .appStateEv next tokenEnv now =>
    (handleAppStateChange now next tokenEnv s).1

/-- Run a sequence of events from a state. -/
def run (s : SysState) : List AuthEvent → SysState
  | [] => s
  | e :: es => run (step e s) es

/-- Deleting a key removes every value stored under it. -/
theorem getItem_deleteItem_self (k : String) :
    ∀ st : Store, (st.deleteItem k).getItem k = none := by
  intro st
  induction st with
  | nil => rfl
  | cons a l ih =>
    unfold Store.deleteItem Store.getItem at ih ⊢
    rw [List.filter_cons]
    by_cases h : a.1 = k
    · rw [show (decide (a.1 ≠ k)) = false by simp [h]]
      rw [if_neg (by simp)]
      exact ih
    · rw [show (decide (a.1 ≠ k)) = true by simp [h]]
      rw [if_pos rfl, List.find?_cons_of_neg _ (by simp [h])]
      exact ih

/-- Deleting one key leaves lookups of a different key unchanged. -/
theorem getItem_deleteItem_other (k k' : String) (hne : k ≠ k') :
    ∀ st : Store, (st.deleteItem k').getItem k = st.getItem k := by
  intro st
  induction st with
  | nil => rfl
  | cons a l ih =>
    unfold Store.deleteItem Store.getItem at ih ⊢
    rw [List.filter_cons]
    by_cases h : a.1 = k'
    · have hk : ¬(a.1 = k) := fun hk => hne (by rw [← hk, h])
      rw [show (decide (a.1 ≠ k')) = false by simp [h]]
      rw [if_neg (by simp), List.find?_cons_of_neg _ (by simp [hk])]
      exact ih
    · rw [show (decide (a.1 ≠ k')) = true by simp [h]]
      rw [if_pos rfl]
      by_cases hk : a.1 = k
      · rw [List.find?_cons_of_pos _ (by simp [hk]),
          List.find?_cons_of_pos _ (by simp [hk])]
      · rw [List.find?_cons_of_neg _ (by simp [hk]),
          List.find?_cons_of_neg _ (by simp [hk])]
        exact ih

/-- Clearing the stored tokens leaves neither key readable. -/
theorem clearStoredTokens_getItem (st : Store) :
    (clearStoredTokens st).getItem TOKEN_KEY = none ∧
    (clearStoredTokens st).getItem TOKEN_EXPIRY_KEY = none := by
  unfold clearStoredTokens
  constructor
  · rw [getItem_deleteItem_other TOKEN_KEY TOKEN_EXPIRY_KEY (by decide)]
    exact getItem_deleteItem_self TOKEN_KEY st
  · exact getItem_deleteItem_self TOKEN_EXPIRY_KEY (st.deleteItem TOKEN_KEY)

/-- C6: every transition to no user — `updateUser(null)`, reached from a
successful `signOut` and from an auth-state event with no user — leaves
role `null` and deletes both secure-storage keys. -/
theorem signout_clears_storage (now : Nat)
    (tokenRes : Except AuthError (Option String))
    (tokenEnv : Except JsError String) (s : SysState) :
    (updateUserM now tokenRes none s).user = none ∧
    (updateUserM now tokenRes none s).role = none ∧
    Store.getItem (updateUserM now tokenRes none s).store TOKEN_KEY = none ∧
    Store.getItem (updateUserM now tokenRes none s).store TOKEN_EXPIRY_KEY = none ∧
    (step (.signOutEv (.ok ()) now) s).role = none ∧
    Store.getItem (step (.signOutEv (.ok ()) now) s).store TOKEN_KEY = none ∧
    Store.getItem (step (.signOutEv (.ok ()) now) s).store TOKEN_EXPIRY_KEY = none ∧
    (step (.authStateEv none tokenEnv now) s).role = none ∧
    Store.getItem (step (.authStateEv none tokenEnv now) s).store TOKEN_KEY = none ∧
    Store.getItem (step (.authStateEv none tokenEnv now) s).store TOKEN_EXPIRY_KEY = none :=
  ⟨rfl, rfl, (clearStoredTokens_getItem s.store).1, (clearStoredTokens_getItem s.store).2,
   rfl, (clearStoredTokens_getItem s.store).1, (clearStoredTokens_getItem s.store).2,
   rfl, (clearStoredTokens_getItem s.store).1, (clearStoredTokens_getItem s.store).2⟩

/-- Witness for C6 at the initial state and concrete arguments. -/
theorem signout_clears_storage_witness :
    (updateUserM 0 (.ok none) none initState).role = none ∧
    Store.getItem (updateUserM 0 (.ok none) none initState).store TOKEN_KEY = none ∧
    (step (.signOutEv (.ok ()) 0) initState).role = none ∧
    Store.getItem (step (.signOutEv (.ok ()) 0) initState).store TOKEN_EXPIRY_KEY = none :=
  ⟨(signout_clears_storage 0 (.ok none) (.ok ("t")) initState).2.1,
   (signout_clears_storage 0 (.ok none) (.ok ("t")) initState).2.2.1,
   (signout_clears_storage 0 (.ok none) (.ok ("t")) initState).2.2.2.2.1,
   (signout_clears_storage 0 (.ok none) (.ok ("t")) initState).2.2.2.2.2.2.1⟩

/-- C4: the foreground handler calls the service `getIdToken` with
`forceRefresh = true` exactly when the app state turns `active` while a
user is signed in and the stored token is expired; with an unexpired token
or no user nothing happens, and a refresh stores the new token and
re-parses the role from it. -/
theorem foreground_refresh_iff (now : Nat) (next : String)
    (env : Except JsError String) (s : SysState) :
    ((handleAppStateChange now next env s).2 = true ↔
      (next = "active" ∧ s.user.isSome = true ∧ isTokenExpired now s.store = true)) ∧
    (s.user = none → (handleAppStateChange now next env s).2 = false) ∧
    (isTokenExpired now s.store = false →
      handleAppStateChange now next env s = (s, false)) ∧
    ((handleAppStateChange now next env s).2 = true →
      (handleAppStateChange now next env s).1 = refreshTokenM now env s) ∧
    (∀ t, (handleAppStateChange now next env s).2 = true →
      getIdTokenService s.sdkUser env = .ok (some t) →
      (handleAppStateChange now next env s).1.store = storeToken now t s.store ∧
      (handleAppStateChange now next env s).1.role = roleOrNull (parseCustomClaims t)) := by
  unfold handleAppStateChange
  split_ifs with hc he
  · refine ⟨?_, ?_, ?_, fun _ => rfl, ?_⟩
    · simp only [true_iff]
      exact ⟨hc.1, hc.2, he⟩
    · intro hu
      rw [hu] at hc
      simp at hc
    · intro hne
      rw [he] at hne
      exact absurd hne (by simp)
    · intro t _ htok
      unfold refreshTokenM
      rw [htok]
      exact ⟨rfl, rfl⟩
  · refine ⟨?_, fun _ => rfl, fun _ => rfl, ?_, ?_⟩
    · constructor
      · intro h
        exact absurd h (by simp)
      · rintro ⟨-, -, h3⟩
        exact absurd h3 he
    · intro h
      exact absurd h (by simp)
    · intro t h htok
      exact absurd h (by simp)
  · refine ⟨?_, fun _ => rfl, fun _ => rfl, ?_, ?_⟩
    · constructor
      · intro h
        exact absurd h (by simp)
      · rintro ⟨h1, h2, -⟩
        exact absurd ⟨h1, h2⟩ hc
    · intro h
      exact absurd h (by simp)
    · intro t h htok
      exact absurd h (by simp)

/-- Signed-in state with an expired stored token, for the C4 witness. -/
def expiredState : SysState :=
  { user := some (mapFirebaseUser sampleFU), role := none, isLoading := false,
    error := none, store := [(TOKEN_EXPIRY_KEY, "0")],
    sdkUser := some (mapFirebaseUser sampleFU) }

/-- Witness for C4: on foreground with an expired token the refresh fires
and stores the refreshed token with its parsed role; with no user it does
not fire. -/
theorem foreground_refresh_iff_witness :
    (handleAppStateChange 5 ("active") (Except.ok mockToken) expiredState).2 = true ∧
    (handleAppStateChange 5 ("active") (Except.ok mockToken) expiredState).1.role =
      some (Json.str ("user")) ∧
    (handleAppStateChange 5 ("active") (Except.ok mockToken) initState).2 = false := by
  have h1 := (foreground_refresh_iff 5 ("active") (Except.ok mockToken) expiredState).1.mpr
    ⟨rfl, rfl, rfl⟩
  have h2 := ((foreground_refresh_iff 5 ("active") (Except.ok mockToken) expiredState).2.2.2.2
    mockToken h1 rfl).2
  have h3 := (foreground_refresh_iff 5 ("active") (Except.ok mockToken) initState).2.1 rfl
  exact ⟨h1, by rw [h2]; rfl, h3⟩

/-- With a user, `updateUser` always leaves that user set. -/
theorem updateUserM_some_user (now : Nat) (tr : Except AuthError (Option String))
    (u : User) (s : SysState) : (updateUserM now tr (some u) s).user = some u := by
  unfold updateUserM
  cases tr with
  | error e => rfl
  | ok o => cases o <;> rfl

/-- Refreshing the token never changes the user. -/
theorem refreshTokenM_user (now : Nat) (env : Except JsError String)
    (s : SysState) : (refreshTokenM now env s).user = s.user := by
  unfold refreshTokenM
  cases htok : getIdTokenService s.sdkUser env with
  | error e => rfl
  | ok o => cases o <;> rfl

/-- A successful authentication leaves the new user set. -/
theorem afterAuthSuccess_user (now : Nat) (tokenEnv : Except JsError String)
    (u : User) (s : SysState) : (afterAuthSuccess now tokenEnv u s).user = some u :=
  updateUserM_some_user now (getIdTokenService (some u) tokenEnv) u
    { s with error := none, isLoading := true, sdkUser := some u }

/-- Guard of the amended invariant: a `refreshToken` event is allowed only
while a user is signed in; every other event is always allowed. -/
def eventOkAt (s : SysState) : AuthEvent → Bool
  | .refreshEv _ _ => s.user.isSome
  | _ => true

/-- A trace is guarded when each event is allowed in the state it runs
from. -/
def guardedFrom (s : SysState) : List AuthEvent → Bool
  | [] => true
  | e :: es => eventOkAt s e && guardedFrom (step e s) es

/-- One allowed step preserves `user = null → role = null`. -/
theorem step_preserves_role_null (s : SysState) (e : AuthEvent)
    (hs : s.user = none → s.role = none) (hg : eventOkAt s e = true) :
    (step e s).user = none → (step e s).role = none := by
  cases e with
  | signUpEv q createRes updateRes tokenEnv now =>
    cases hr : signUpWithEmail q createRes updateRes with
    | ok u =>
      simp only [step, hr]
      rw [afterAuthSuccess_user]
      intro hu
      exact Option.noConfusion hu
    | error err =>
      cases createRes with
      | ok fu =>
        simp only [step, hr]
        exact hs
      | error e2 =>
        simp only [step, hr]
        exact hs
  | signInEv p res tokenEnv now =>
    cases hr : signInWithEmail p res with
    | ok u =>
      simp only [step, hr]
      rw [afterAuthSuccess_user]
      intro hu
      exact Option.noConfusion hu
    | error err =>
      simp only [step, hr]
      exact hs
  | googleEv tokenEnv now =>
    cases hr : signInWithGoogle with
    | ok u =>
      simp only [step, hr]
      rw [afterAuthSuccess_user]
      intro hu
      exact Option.noConfusion hu
    | error err =>
      simp only [step, hr]
      exact hs
  | appleEv tokenEnv now =>
    cases hr : signInWithApple with
    | ok u =>
      simp only [step, hr]
      rw [afterAuthSuccess_user]
      intro hu
      exact Option.noConfusion hu
    | error err =>
      simp only [step, hr]
      exact hs
  | signOutEv res now =>
    cases hr : signOutService res with
    | ok v =>
      simp only [step, hr]
      intro _
      rfl
    | error err =>
      simp only [step, hr]
      exact hs
  | refreshEv tokenEnv now =>
    simp only [step]
    rw [refreshTokenM_user]
    intro hu
    simp only [eventOkAt] at hg
    rw [hu] at hg
    exact absurd hg (by simp)
  | clearErrorEv =>
    simp only [step]
    exact hs
  | authStateEv newUser tokenEnv now =>
    cases newUser with
    | none =>
      simp only [step]
      intro _
      rfl
    | some u =>
      simp only [step]
      rw [updateUserM_some_user]
      intro hu
      exact Option.noConfusion hu
  | appStateEv next tokenEnv now =>
    simp only [step, handleAppStateChange]
    split_ifs with hc he
    · intro hu
      dsimp only at hu
      rw [refreshTokenM_user] at hu
      rw [hu] at hc
      simp at hc
    · intro hu
      exact hs hu
    · intro hu
      exact hs hu

/-- A guarded trace preserves `user = null → role = null`. -/
theorem run_preserves_role_null :
    ∀ (es : List AuthEvent) (s : SysState),
      (s.user = none → s.role = none) → guardedFrom s es = true →
      ((run s es).user = none → (run s es).role = none) := by
  intro es
  induction es with
  | nil => intro s hs _; exact hs
  | cons e es ih =>
    intro s hs hg
    unfold guardedFrom at hg
    rw [Bool.and_eq_true] at hg
    unfold run
    exact ih (step e s) (step_preserves_role_null s e hs hg.1) hg.2

/-- C8 (amended): in every state reached by a guarded event trace — one in
which `refreshToken` is only invoked while a user is signed in — the
exposed `isAuthenticated` equals `user` being non-null, and a null user
comes with a null role. Unguarded traces can violate the second part, see
the counterexample. -/
theorem auth_context_invariant (es : List AuthEvent)
    (hg : guardedFrom initState es = true) :
    isAuthenticated (run initState es) = (run initState es).user.isSome ∧
    ((run initState es).user = none → (run initState es).role = none) :=
  ⟨rfl, run_preserves_role_null es initState (fun _ => rfl) hg⟩

/-- Concrete guarded trace for the C8 witness: a successful sign-in
followed by a sign-out. -/
def witnessEvents : List AuthEvent :=
  [.signInEv { email := "a@b.c", password := "pw" } (.ok sampleFU) (.ok mockToken) 0,
   .signOutEv (.ok ()) 0]

/-- Witness for C8 on `witnessEvents`. -/
theorem auth_context_invariant_witness :
    guardedFrom initState witnessEvents = true ∧
    isAuthenticated (run initState witnessEvents) =
      (run initState witnessEvents).user.isSome ∧
    (run initState witnessEvents).user = none ∧
    (run initState witnessEvents).role = none :=
  ⟨rfl, (auth_context_invariant witnessEvents rfl).1, rfl,
   (auth_context_invariant witnessEvents rfl).2 rfl⟩

/-- Sign-up parameters with a display name, so that the profile update
runs. -/
def overlapParams : SignUpParams :=
  { email := "a@b.c", password := "pw", displayName := some ("Ann") }

/-- C8 counterexample trace: the sign-up creates the account — signing the
user in on the SDK side — but its profile update rejects, so the provider
keeps `user = null`; a `refreshToken` call then obtains a token and sets a
non-null role while `user` is still `null`. -/
def cexEvents : List AuthEvent :=
  [.signUpEv overlapParams (.ok sampleFU) (.error strangeError) (.ok mockToken) 0,
   .refreshEv (.ok mockToken) 0]

/-- Counterexample to C8 as stated: after `cexEvents` the provider has
`user = null` but `role` non-null. -/
theorem auth_context_invariant_cex :
    (run initState cexEvents).user = none ∧
    (run initState cexEvents).role = some (Json.str ("user")) ∧
    ¬((run initState cexEvents).user = none →
      (run initState cexEvents).role = none) := by
  refine ⟨rfl, rfl, fun himp => ?_⟩
  have h1 := himp rfl
  have h2 : (run initState cexEvents).role = some (Json.str ("user")) := rfl
  rw [h1] at h2
  exact Option.noConfusion h2

/-! Walkthrough screen (`walkthrough.tsx`). -/

/-- A walkthrough screen entry. -/
structure Screen where
  id : Nat
  headline : String
  subtext : String
  buttonText : String

/-- The `screens` array of `walkthrough.tsx`. -/
def screens : List Screen := [
  { id := 1, headline := "Compete with Friends. Stay Active.",
    subtext := "Join step, distance, or active minute challenges with your friends and groups.",
    buttonText := "Next →" },
  { id := 2, headline := "We Track It for You.",
    subtext := "MilesAhead syncs your daily steps, distance, and active minutes from your phone — no input needed.",
    buttonText := "Next →" },
  { id := 3, headline := "Chase the Leader. Or Be One.",
    subtext := "Get real-time updates and daily nudges when someone passes you in the rankings.",
    buttonText := "Let\x27s Go 🚀" }]

/-- Model of `handleNext`: advance unless already on the last screen; the
final screen's branch only has a navigation TODO and leaves the index
unchanged. -/
def handleNext (currentScreen : Nat) : Nat :=
  if currentScreen < screens.length - 1 then currentScreen + 1 else currentScreen

/-- Model of `goToScreen`: jump to the tapped progress dot (a no-op when it
is the current one). -/
def goToScreen (currentScreen index : Nat) : Nat :=
  if index ≠ currentScreen then index else currentScreen

/-- User events on the walkthrough. -/
inductive WalkEvent where
  | nextEv : WalkEvent
  | goEv (index : Nat) : WalkEvent

/-- Apply one walkthrough event to the `currentScreen` state. -/
def walkStep : WalkEvent → Nat → Nat
  | .nextEv, c => handleNext c
  | .goEv i, c => goToScreen c i

/-- Run a sequence of walkthrough events from a screen index. -/
def walkRun (c : Nat) : List WalkEvent → Nat
  | [] => c
  | e :: es => walkRun (walkStep e c) es

/-- The events the claim ranges over: `goToScreen` only with an index of an
existing progress dot. -/
def walkEventOk : WalkEvent → Bool
  | .nextEv => true
  | .goEv i => i < screens.length

/-- An in-range screen index stays in range under every allowed event. -/
theorem walkStep_lt (e : WalkEvent) (c : Nat) (hc : c < screens.length)
    (he : walkEventOk e = true) : walkStep e c < screens.length := by
  cases e with
  | nextEv =>
    simp only [walkStep, handleNext]
    split_ifs with h
    · omega
    · exact hc
  | goEv i =>
    simp only [walkStep, goToScreen]
    simp only [walkEventOk, decide_eq_true_eq] at he
    split_ifs with h
    · exact he
    · exact hc

/-- C9: the `screens` array has exactly three entries; from screen 0,
under every sequence of `handleNext` events and in-range `goToScreen`
events, `currentScreen` stays below `screens.length` (and, as a `Nat`, at
or above 0); and `handleNext` on the last screen leaves the index
unchanged. -/
theorem walkthrough_screen_bound (es : List WalkEvent)
    (hok : ∀ e ∈ es, walkEventOk e = true) :
    screens.length = 3 ∧
    walkRun 0 es < screens.length ∧
    (∀ c, c = screens.length - 1 → handleNext c = c) := by
  refine ⟨rfl, ?_, ?_⟩
  · have key : ∀ (l : List WalkEvent) (c : Nat), c < screens.length →
        (∀ e ∈ l, walkEventOk e = true) → walkRun c l < screens.length := by
      intro l
      induction l with
      | nil => intro c hc _; exact hc
      | cons e es ih =>
        intro c hc hall
        unfold walkRun
        exact ih (walkStep e c)
          (walkStep_lt e c hc (hall e (List.mem_cons_self e es)))
          (fun x hx => hall x (List.mem_cons_of_mem e hx))
    exact key es 0 (by decide) hok
  · intro c hc
    rw [hc]
    decide

/-- Witness for C9: jump to the last dot, then press next twice; the index
stays at the last screen. -/
def walkWitnessEvents : List WalkEvent := [.goEv 2, .nextEv, .nextEv]

/-- Witness for C9 on `walkWitnessEvents`. -/
theorem walkthrough_screen_bound_witness :
    walkRun 0 walkWitnessEvents < screens.length ∧ handleNext 2 = 2 :=
  ⟨(walkthrough_screen_bound walkWitnessEvents (by decide)).2.1,
   (walkthrough_screen_bound walkWitnessEvents (by decide)).2.2 2 (by decide)⟩

end FitApp
